import Mathlib

/-!
Verification development for the scalability benchmark-orchestration core
(`scalability/flamegraphs.py`, `scalability/experiments/run_many_canisters_experiment.py`,
`scalability/common/cdweekly_results.py`, `gitlab-ci/src/test_results/honeycomb.py`).

Remote side-effects (ssh commands, scp transfers, detached processes, log lines)
are embedded as an explicit event trace; the Python methods become pure Lean
functions from collector state and an environment of remote exit codes to a
new state plus the list of emitted events.
-/

namespace IC

/-- A remote-side-effect event issued by the orchestration code.
`runParallel` is `ssh.run_ssh_in_parallel` (blocking fan-out of one command);
`scpPush` is `ssh.scp_in_parallel` (i-th source to i-th destination);
`runDetached` is `ssh.run_ssh_with_t` (returns a detached handle);
`runOne` is blocking `ssh.run_ssh`; `scpFile` is `ssh.scp_file` (detached copy,
returns a handle); `waitH` is `.wait()` on a detached handle; `logLine` is a
controller-side print. -/
inductive Ev where
  | runParallel (machines : List String) (cmd : String)
  | scpPush (sources : List String) (destinations : List String)
  | runDetached (handle : Nat) (target : String) (cmd : String)
      (stdoutPath : String) (stderrPath : String)
  | runOne (target : String) (cmd : String)
  | scpFile (handle : Nat) (src : String) (dst : String)
  | waitH (handle : Nat)
  | logLine (msg : String)
  deriving DecidableEq, Repr

/-- Modelled from the spec: the ssh layer (`common/ssh.py`, not under `src/`)
returns per-target exit status for fan-out commands ("returns per-target exit
status") and an exit status for each transfer. The environment records the
exit code each remote command / transfer would report. -/
structure Env where
  /-- exit code of the probe command `stat flamegraph` on each machine -/
  probeExit : String → Int
  /-- exit code reported by waiting on the artifact-pull scp process -/
  pullExit : Int

/-- State of one `Flamegraph` collector instance (`scalability/flamegraphs.py`).
`flamegraph_pid` is the detached handle retained by `start_iteration`
(`none` before the first start, mirroring the attribute being unset). -/
structure Flamegraph where
  metricName : String
  target : String
  do_instrument : Bool
  flamegraph_pid : Option Nat
  deriving DecidableEq, Repr

/-- Modelled from the spec: the `metrics.Metric` base-class constructor
(`common/metrics.py`, not under `src/`) leaves the collector enabled; the
`do_instrument = false` no-op state is only entered "during init" when the
collector "is globally disabled by configuration". -/
def Flamegraph.make (metricName target : String) : Flamegraph :=
  { metricName := metricName, target := target,
    do_instrument := true, flamegraph_pid := none }

/-- The probe command of `install_flamegraph`. -/
def probeCmd : String := "stat flamegraph"

/-- First OS-preparation command (kernel-parameter relaxation). -/
def prepCmd1 : String := "echo -1 | sudo tee /proc/sys/kernel/perf_event_paranoid"

/-- Second OS-preparation command (package installation). -/
def prepCmd2 : String :=
  "sudo apt update; sudo apt install -y linux-tools-common linux-tools-$(uname -r)"

/-- scp destination for pushing the binary to machine `m`: `admin@[m]:`. -/
def pushDest (m : String) : String := "admin@[" ++ m ++ "]:"

/-- Function `Flamegraph.install_flamegraph`: probe all machines in parallel with
`stat flamegraph`; if the exit-code list is not all zero, run the two
OS-preparation commands on all machines and scp-push the binary to all
machines. Returns the emitted event trace. -/
def Flamegraph.install_flamegraph (fg : Flamegraph) (env : Env)
    (machines : List String) : List Ev :=
  if !fg.do_instrument then []
  else
    let r := machines.map env.probeExit
    if r ≠ machines.map (fun _ => (0 : Int)) then
      [Ev.runParallel machines probeCmd,
       Ev.runParallel machines prepCmd1,
       Ev.runParallel machines prepCmd2,
       Ev.scpPush (machines.map fun _ => "flamegraph") (machines.map pushDest)]
    else
      [Ev.runParallel machines probeCmd]

/-- Function `Flamegraph.init`: when the `no_flamegraphs` flag is set, record
`do_instrument := false` and do nothing else; otherwise call
`install_flamegraph` on the collector's single target. -/
def Flamegraph.init (fg : Flamegraph) (no_flamegraphs : Bool) (env : Env) :
    Flamegraph × List Ev :=
  if no_flamegraphs then ({ fg with do_instrument := false }, [])
  else (fg, fg.install_flamegraph env [fg.target])

/-- The detached profiling command started by `start_iteration`. -/
def startCmd : String :=
  "sudo rm -f /tmp/flamegraph.svg; rm -f perf.data perf.data.old; " ++
  "cp -f flamegraph /tmp; cd /tmp; " ++
  "sudo ./flamegraph -p $(pidof replica) --root --no-inline -o /tmp/flamegraph.svg"

/-- Function `Flamegraph.start_iteration`: when instrumenting, start the detached
profiling command via `ssh.run_ssh_with_t` and retain the returned handle in
`flamegraph_pid`. `h` is the next fresh handle number; it is returned
incremented when a handle was allocated. -/
def Flamegraph.start_iteration (fg : Flamegraph) (outdir : String) (h : Nat) :
    Flamegraph × Nat × List Ev :=
  if !fg.do_instrument then (fg, h, [])
  else
    ({ fg with flamegraph_pid := some h }, h + 1,
     [Ev.runDetached h fg.target startCmd
        (outdir ++ "/flamegraph-" ++ fg.target ++ ".stdout.log")
        (outdir ++ "/flamegraph-" ++ fg.target ++ ".stderr.log")])

/-- The remote command `end_iteration` issues to stop the sampler:
it kills `perf` itself, not the flamegraph wrapper process. -/
def killCmd : String := "sudo kill $(pidof perf)"

/-- Local destination of the artifact pull:
`<iteration_dir>/flamegraph_<target>.svg`. -/
def flamegraphPullDest (iter_outdir target : String) : String :=
  iter_outdir ++ "/flamegraph_" ++ target ++ ".svg"

/-- Remote source of the artifact pull: `admin@[target]:/tmp/flamegraph.svg`. -/
def flamegraphPullSrc (target : String) : String :=
  "admin@[" ++ target ++ "]:/tmp/flamegraph.svg"

/-- Function `Flamegraph.end_iteration`: when instrumenting, kill `perf` on the target,
wait on the retained detached handle, scp-pull the svg (a detached copy that
is immediately waited on) and log success or failure of the pull; a failed
pull is only logged, never raised. Errors (`Except.error`) model a Python
exception; reading the unset `flamegraph_pid` attribute is the only one. -/
def Flamegraph.end_iteration (fg : Flamegraph) (env : Env)
    (iter_outdir : String) (h : Nat) :
    Except String (Flamegraph × Nat × List Ev) :=
  if !fg.do_instrument then .ok (fg, h, [])
  else
    match fg.flamegraph_pid with
    | none => .error "AttributeError: flamegraph_pid"
    | some pid =>
      .ok (fg, h + 1,
        [Ev.logLine "Terminating flamegraph generation, waiting to finish and fetching svg.",
         Ev.runOne fg.target killCmd,
         Ev.waitH pid,
         Ev.scpFile h (flamegraphPullSrc fg.target)
           (flamegraphPullDest iter_outdir fg.target),
         Ev.waitH h] ++
        (if env.pullExit ≠ 0 then
          [Ev.logLine "Failed to fetch flamegraph, continuing"]
        else
          [Ev.logLine "Waiting for flamegraph done .. success"]))

/-- One lifecycle call on a flamegraph collector. -/
inductive Call where
  | install (machines : List String)
  | start (outdir : String)
  | endIter (iter_outdir : String)
  deriving DecidableEq, Repr

/-- Dispatch one lifecycle call, threading the handle counter. -/
def runCall (env : Env) (fg : Flamegraph) (h : Nat) :
    Call → Except String (Flamegraph × Nat × List Ev)
  | .install machines => .ok (fg, h, fg.install_flamegraph env machines)
  | .start outdir =>
      let (fg2, h2, evs) := fg.start_iteration outdir h
      .ok (fg2, h2, evs)
  | .endIter d => fg.end_iteration env d h

/-- Run a sequence of lifecycle calls, accumulating the emitted events. -/
def runCalls (env : Env) (fg : Flamegraph) (h : Nat) :
    List Call → Except String (Flamegraph × Nat × List Ev)
  | [] => .ok (fg, h, [])
  | c :: cs =>
      match runCall env fg h c with
      | .error e => .error e
      | .ok (fg2, h2, evs) =>
          match runCalls env fg2 h2 cs with
          | .error e => .error e
          | .ok (fg3, h3, evs2) => .ok (fg3, h3, evs ++ evs2)

/-! ### Claim theorems for the Flamegraph collector -/

/-- Concrete environment for the C1 counterexample: machine "a" probes as
absent (exit 1), machine "b" probes as present (exit 0). -/
def cexEnv : Env := { probeExit := fun m => if m = "a" then 1 else 0, pullExit := 0 }

/-- A concrete instrumenting collector. -/
def cexFg : Flamegraph := Flamegraph.make "flamegraph" "a"

/-- C1 counterexample: on fleet ["a", "b"] with only "a" failing the probe,
`install_flamegraph` pushes the binary to BOTH machines — the push destination
list contains `admin@[b]:` even though "b"'s probe succeeded, refuting
"the install and push commands are issued to exactly those k targets and to
none of the other n-k". -/
theorem install_flamegraph_whole_fleet_cex :
    cexEnv.probeExit "b" = 0 ∧
    Ev.scpPush ["flamegraph", "flamegraph"] [pushDest "a", pushDest "b"] ∈
      cexFg.install_flamegraph cexEnv ["a", "b"] ∧
    Ev.runParallel ["a", "b"] prepCmd1 ∈ cexFg.install_flamegraph cexEnv ["a", "b"] := by
  decide

/-- C1 (amended): if at least one target's probe returns non-success, the
OS-preparation commands and the artifact push are issued to the whole fleet
(every target, failing or not); remediation touches no machine outside the
fleet and is exactly these three fleet-wide operations after the probe. -/
theorem install_flamegraph_remediation (fg : Flamegraph) (env : Env)
    (machines : List String) (hinstr : fg.do_instrument = true)
    (hfail : ∃ m ∈ machines, env.probeExit m ≠ 0) :
    fg.install_flamegraph env machines =
      [Ev.runParallel machines probeCmd,
       Ev.runParallel machines prepCmd1,
       Ev.runParallel machines prepCmd2,
       Ev.scpPush (machines.map fun _ => "flamegraph") (machines.map pushDest)] := by
  obtain ⟨m, hm, hne⟩ := hfail
  unfold Flamegraph.install_flamegraph
  rw [hinstr]
  simp only [Bool.not_true, Bool.false_eq_true, if_false]
  rw [if_pos]
  intro habs
  rw [List.map_eq_map_iff] at habs
  exact hne (habs m hm)

/-- Witness for `install_flamegraph_remediation` at a concrete fleet. -/
theorem install_flamegraph_remediation_witness :
    cexFg.install_flamegraph cexEnv ["a", "b"] =
      [Ev.runParallel ["a", "b"] probeCmd,
       Ev.runParallel ["a", "b"] prepCmd1,
       Ev.runParallel ["a", "b"] prepCmd2,
       Ev.scpPush (["a", "b"].map fun _ => "flamegraph") (["a", "b"].map pushDest)] :=
  install_flamegraph_remediation cexFg cexEnv ["a", "b"] (by decide)
    ⟨"a", by decide, by decide⟩

/-- C5: on an already-bootstrapped fleet (every probe exits 0), two successive
`install_flamegraph` calls each perform only the probe round-trip: no
OS-preparation command and no push appear in the combined trace. -/
theorem install_flamegraph_idempotent (fg : Flamegraph) (env : Env)
    (machines : List String) (h : Nat) (hinstr : fg.do_instrument = true)
    (hok : ∀ m ∈ machines, env.probeExit m = 0) :
    runCalls env fg h [Call.install machines, Call.install machines] =
      .ok (fg, h, [Ev.runParallel machines probeCmd,
                   Ev.runParallel machines probeCmd]) := by
  have hprobe : fg.install_flamegraph env machines =
      [Ev.runParallel machines probeCmd] := by
    unfold Flamegraph.install_flamegraph
    rw [hinstr]
    simp only [Bool.not_true, Bool.false_eq_true, if_false]
    rw [if_neg]
    exact fun habs => habs (List.map_eq_map_iff.mpr hok)
  simp [runCalls, runCall, hprobe]

/-- Environment in which every probe succeeds. -/
def okEnv : Env := { probeExit := fun _ => 0, pullExit := 0 }

/-- Witness for `install_flamegraph_idempotent` at a concrete fleet. -/
theorem install_flamegraph_idempotent_witness :
    runCalls okEnv cexFg 0 [Call.install ["a", "b"], Call.install ["a", "b"]] =
      .ok (cexFg, 0, [Ev.runParallel ["a", "b"] probeCmd,
                      Ev.runParallel ["a", "b"] probeCmd]) :=
  install_flamegraph_idempotent cexFg okEnv ["a", "b"] 0 (by decide)
    (fun m _ => by rfl)

/-- C2: a collector whose `do_instrument` flag is false performs every
sequence of `install_flamegraph` / `start_iteration` / `end_iteration` calls
as a pure no-op: no event of any kind is emitted, no error is raised, and the
collector state (in particular the `do_instrument` flag itself) is unchanged. -/
theorem disabled_collector_noop (env : Env) (fg : Flamegraph) (h : Nat)
    (cs : List Call) (hdis : fg.do_instrument = false) :
    runCalls env fg h cs = .ok (fg, h, []) := by
  induction cs with
  | nil => rfl
  | cons c cs ih =>
      have hcall : runCall env fg h c = .ok (fg, h, []) := by
        cases c with
        | install machines =>
            simp [runCall, Flamegraph.install_flamegraph, hdis]
        | start outdir =>
            simp [runCall, Flamegraph.start_iteration, hdis]
        | endIter d =>
            simp [runCall, Flamegraph.end_iteration, hdis]
      simp [runCalls, hcall, ih]

/-- Witness for `disabled_collector_noop`: a disabled collector runs a mixed
call sequence without emitting anything. -/
theorem disabled_collector_noop_witness :
    runCalls okEnv { cexFg with do_instrument := false } 0
        [Call.start "/tmp", Call.endIter "/out", Call.install ["a"],
         Call.start "/tmp", Call.endIter "/out"] =
      .ok ({ cexFg with do_instrument := false }, 0, []) :=
  disabled_collector_noop okEnv { cexFg with do_instrument := false } 0 _ rfl

/-- Helper: the exact trace decomposition of `end_iteration` on an
instrumenting collector with a retained handle (shared by several claim
theorems below). -/
theorem end_iteration_trace (fg : Flamegraph) (env : Env)
    (d : String) (h pid : Nat)
    (hinstr : fg.do_instrument = true) (hpid : fg.flamegraph_pid = some pid) :
    ∃ tail,
      fg.end_iteration env d h =
        .ok (fg, h + 1,
          [Ev.logLine "Terminating flamegraph generation, waiting to finish and fetching svg.",
           Ev.runOne fg.target killCmd,
           Ev.waitH pid,
           Ev.scpFile h (flamegraphPullSrc fg.target) (flamegraphPullDest d fg.target),
           Ev.waitH h] ++ tail) ∧
      ∀ e ∈ tail, ∃ m, e = Ev.logLine m := by
  unfold Flamegraph.end_iteration
  rw [hinstr, hpid]
  by_cases hp : env.pullExit ≠ 0
  · exact ⟨[Ev.logLine "Failed to fetch flamegraph, continuing"],
      by simp [hp], by simp⟩
  · exact ⟨[Ev.logLine "Waiting for flamegraph done .. success"],
      by simp [hp], by simp⟩

/-- C3: on an instrumenting collector with a retained handle, `end_iteration`
emits, in this order: exactly one blocking remote command — the kill of the
`perf` sampler itself, `sudo kill $(pidof perf)`, not of the flamegraph
wrapper — then the wait on the retained detached handle, then exactly one
artifact pull (immediately waited); everything after is log output only, so
the termination command precedes the pull and each occurs exactly once. -/
theorem end_iteration_stop_sequence (fg : Flamegraph) (env : Env)
    (d : String) (h pid : Nat)
    (hinstr : fg.do_instrument = true) (hpid : fg.flamegraph_pid = some pid) :
    ∃ tail,
      fg.end_iteration env d h =
        .ok (fg, h + 1,
          [Ev.logLine "Terminating flamegraph generation, waiting to finish and fetching svg.",
           Ev.runOne fg.target killCmd,
           Ev.waitH pid,
           Ev.scpFile h (flamegraphPullSrc fg.target) (flamegraphPullDest d fg.target),
           Ev.waitH h] ++ tail) ∧
      ∀ e ∈ tail, ∃ m, e = Ev.logLine m :=
  end_iteration_trace fg env d h pid hinstr hpid

/-- A collector with a retained handle, for witnesses. -/
def startedFg : Flamegraph := { cexFg with flamegraph_pid := some 0 }

/-- Witness for `end_iteration_stop_sequence` on a concrete collector. -/
theorem end_iteration_stop_sequence_witness :
    ∃ tail,
      startedFg.end_iteration okEnv "/out" 1 =
        .ok (startedFg, 1 + 1,
          [Ev.logLine "Terminating flamegraph generation, waiting to finish and fetching svg.",
           Ev.runOne startedFg.target killCmd,
           Ev.waitH 0,
           Ev.scpFile 1 (flamegraphPullSrc startedFg.target)
             (flamegraphPullDest "/out" startedFg.target),
           Ev.waitH 1] ++ tail) ∧
      ∀ e ∈ tail, ∃ m, e = Ev.logLine m :=
  end_iteration_stop_sequence startedFg okEnv "/out" 1 0 rfl rfl

/-- C4: when the artifact pull exits non-zero, `end_iteration` logs the
failure and still returns normally (`Except.ok`, no exception), so the caller
proceeds without that iteration's artifact. -/
theorem end_iteration_pull_failure_logged (fg : Flamegraph) (env : Env)
    (d : String) (h pid : Nat)
    (hinstr : fg.do_instrument = true) (hpid : fg.flamegraph_pid = some pid)
    (hfail : env.pullExit ≠ 0) :
    ∃ evs, fg.end_iteration env d h = .ok (fg, h + 1, evs) ∧
      Ev.logLine "Failed to fetch flamegraph, continuing" ∈ evs := by
  unfold Flamegraph.end_iteration
  rw [hinstr, hpid]
  simp only [Bool.not_true, Bool.false_eq_true, if_false]
  refine ⟨_, rfl, ?_⟩
  simp [hfail]

/-- Environment whose artifact pull fails. -/
def pullFailEnv : Env := { probeExit := fun _ => 0, pullExit := 1 }

/-- Witness for `end_iteration_pull_failure_logged`. -/
theorem end_iteration_pull_failure_logged_witness :
    ∃ evs, startedFg.end_iteration pullFailEnv "/out" 1 = .ok (startedFg, 1 + 1, evs) ∧
      Ev.logLine "Failed to fetch flamegraph, continuing" ∈ evs :=
  end_iteration_pull_failure_logged startedFg pullFailEnv "/out" 1 0 rfl rfl
    (by decide)

/-- C8: the artifact pull of `end_iteration` targets exactly the path
`<iteration_dir>/flamegraph_<target>.svg`, and this path is injective in the
target for a fixed iteration directory, so distinct targets' artifacts land
at distinct paths. -/
theorem flamegraph_pull_path (fg : Flamegraph) (env : Env)
    (d : String) (h pid : Nat)
    (hinstr : fg.do_instrument = true) (hpid : fg.flamegraph_pid = some pid) :
    (∃ pre post, fg.end_iteration env d h =
      .ok (fg, h + 1, pre ++
        [Ev.scpFile h (flamegraphPullSrc fg.target)
          (d ++ "/flamegraph_" ++ fg.target ++ ".svg")] ++ post)) ∧
    ∀ t1 t2 : String, t1 ≠ t2 →
      flamegraphPullDest d t1 ≠ flamegraphPullDest d t2 := by
  constructor
  · obtain ⟨tail, heq, -⟩ := end_iteration_trace fg env d h pid hinstr hpid
    exact ⟨[Ev.logLine "Terminating flamegraph generation, waiting to finish and fetching svg.",
            Ev.runOne fg.target killCmd, Ev.waitH pid],
           [Ev.waitH h] ++ tail, by simpa [flamegraphPullDest] using heq⟩
  · intro t1 t2 hne heq
    apply hne
    have hdata := congrArg String.data heq
    simp only [flamegraphPullDest, String.data_append] at hdata
    have h1 := List.append_cancel_right hdata
    have h2 := List.append_cancel_left h1
    exact String.ext h2

/-- Witness for `flamegraph_pull_path` at a concrete state. -/
theorem flamegraph_pull_path_witness :
    (∃ pre post, startedFg.end_iteration okEnv "/out" 1 =
      .ok (startedFg, 1 + 1, pre ++
        [Ev.scpFile 1 (flamegraphPullSrc startedFg.target)
          ("/out" ++ "/flamegraph_" ++ startedFg.target ++ ".svg")] ++ post)) ∧
    ∀ t1 t2 : String, t1 ≠ t2 →
      flamegraphPullDest "/out" t1 ≠ flamegraphPullDest "/out" t2 :=
  flamegraph_pull_path startedFg okEnv "/out" 1 0 rfl rfl

/-- C9: the collector retains exactly one detached handle: a second
`start_iteration` without an intervening `end_iteration` overwrites
`flamegraph_pid` with the new handle, so the subsequent `end_iteration` waits
on the second handle and the first handle is never waited on anywhere in the
trace. -/
theorem start_twice_drops_first_handle (fg : Flamegraph) (env : Env)
    (d1 d2 d3 : String) (c : Nat) (hinstr : fg.do_instrument = true) :
    ∃ fg3 c3 evs,
      runCalls env fg c [Call.start d1, Call.start d2, Call.endIter d3] =
        .ok (fg3, c3, evs) ∧
      fg3.flamegraph_pid = some (c + 1) ∧
      Ev.waitH (c + 1) ∈ evs ∧
      Ev.waitH c ∉ evs := by
  have hrun : runCalls env fg c [Call.start d1, Call.start d2, Call.endIter d3] =
      .ok ({ fg with flamegraph_pid := some (c + 1) }, c + 3,
        [Ev.runDetached c fg.target startCmd
           (d1 ++ "/flamegraph-" ++ fg.target ++ ".stdout.log")
           (d1 ++ "/flamegraph-" ++ fg.target ++ ".stderr.log"),
         Ev.runDetached (c + 1) fg.target startCmd
           (d2 ++ "/flamegraph-" ++ fg.target ++ ".stdout.log")
           (d2 ++ "/flamegraph-" ++ fg.target ++ ".stderr.log"),
         Ev.logLine "Terminating flamegraph generation, waiting to finish and fetching svg.",
         Ev.runOne fg.target killCmd,
         Ev.waitH (c + 1),
         Ev.scpFile (c + 2) (flamegraphPullSrc fg.target) (flamegraphPullDest d3 fg.target),
         Ev.waitH (c + 2)] ++
        (if env.pullExit ≠ 0 then
          [Ev.logLine "Failed to fetch flamegraph, continuing"]
        else
          [Ev.logLine "Waiting for flamegraph done .. success"])) := by
    by_cases hp : env.pullExit ≠ 0 <;>
      simp [runCalls, runCall, Flamegraph.start_iteration,
        Flamegraph.end_iteration, hinstr, hp]
  refine ⟨_, _, _, hrun, rfl, ?_, ?_⟩
  · simp
  · by_cases hp : env.pullExit ≠ 0 <;> simp [hp]

/-- Witness for `start_twice_drops_first_handle`. -/
theorem start_twice_drops_first_handle_witness :
    ∃ fg3 c3 evs,
      runCalls okEnv cexFg 0 [Call.start "/a", Call.start "/b", Call.endIter "/o"] =
        .ok (fg3, c3, evs) ∧
      fg3.flamegraph_pid = some (0 + 1) ∧
      Ev.waitH (0 + 1) ∈ evs ∧
      Ev.waitH 0 ∉ evs :=
  start_twice_drops_first_handle cexFg okEnv "/a" "/b" "/o" 0 rfl

/-! ### ManyCanistersExperiment (`run_many_canisters_experiment.py`) -/

/-- Event in the `run_experiment_internal` trace of
`ManyCanistersExperiment`: a Prometheus query, the launch of a detached
canister install, or the wait on such a handle. -/
inductive MCEv where
  | promQuery (what : String)
  | launchInstall (handle : Nat)
  | waitHandle (handle : Nat)
  deriving DecidableEq, Repr

/-- Computed bound `iteration_max = ceil(50000 / batchsize)`. -/
def iterMax (batchsize : Nat) : Nat := (50000 + batchsize - 1) / batchsize

/-- Modelled from the spec: `BaseExperiment.install_canister_nonblocking`
(`common/base_experiment.py`, not under `src/`) launches one detached
canister install and returns its handle ("launch a batch of detached
installs, then wait on all handles"); handles are numbered freshly from `c`.
One loop iteration of `run_experiment_internal`: the two Prometheus queries,
then `batchsize` detached installs appended to `p`, then a wait on each
handle of `p` in append order. -/
def blockEvents (batchsize c : Nat) : List MCEv :=
  [MCEv.promQuery "num_canisters", MCEv.promQuery "install_rate"] ++
  (List.range batchsize).map (fun j => MCEv.launchInstall (c + j)) ++
  (List.range batchsize).map (fun j => MCEv.waitHandle (c + j))

/-- The full event trace of `ManyCanistersExperiment.run_experiment_internal`:
`iteration_max` blocks, the i-th starting at fresh handle `i * batchsize`. -/
def run_experiment_internal (batchsize : Nat) : List MCEv :=
  (List.range (iterMax batchsize)).flatMap
    (fun i => blockEvents batchsize (i * batchsize))

/-- Handles launched but not yet waited on after processing a trace, starting
from the outstanding list `acc`: a launch appends its handle, a wait removes
the first occurrence of its handle, a query changes nothing. -/
def outstandingFrom (acc : List Nat) : List MCEv → List Nat
  | [] => acc
  | MCEv.launchInstall h :: rest => outstandingFrom (acc ++ [h]) rest
  | MCEv.waitHandle h :: rest => outstandingFrom (acc.erase h) rest
  | MCEv.promQuery _ :: rest => outstandingFrom acc rest

/-- Handles still unwaited at the end of a trace. -/
def outstanding (evs : List MCEv) : List Nat := outstandingFrom [] evs

theorem outstandingFrom_append (l1 l2 : List MCEv) :
    ∀ acc, outstandingFrom acc (l1 ++ l2) =
      outstandingFrom (outstandingFrom acc l1) l2 := by
  induction l1 with
  | nil => intro acc; rfl
  | cons e l ih =>
      intro acc
      cases e <;> simp [outstandingFrom, ih]

theorem outstandingFrom_launches (hs : List Nat) :
    ∀ acc, outstandingFrom acc (hs.map MCEv.launchInstall) = acc ++ hs := by
  induction hs with
  | nil => intro acc; simp [outstandingFrom]
  | cons a l ih =>
      intro acc
      simp [outstandingFrom, ih]

theorem outstandingFrom_waits (hs : List Nat) :
    outstandingFrom hs (hs.map MCEv.waitHandle) = [] := by
  induction hs with
  | nil => rfl
  | cons a l ih =>
      simp only [List.map_cons, outstandingFrom, List.erase_cons_head]
      exact ih

theorem outstanding_block (b c : Nat) : outstanding (blockEvents b c) = [] := by
  unfold outstanding blockEvents
  rw [outstandingFrom_append, outstandingFrom_append]
  have hl : (List.range b).map (fun j => MCEv.launchInstall (c + j)) =
      ((List.range b).map (c + ·)).map MCEv.launchInstall := by
    simp [List.map_map, Function.comp]
  have hw : (List.range b).map (fun j => MCEv.waitHandle (c + j)) =
      ((List.range b).map (c + ·)).map MCEv.waitHandle := by
    simp [List.map_map, Function.comp]
  rw [hl, hw, outstandingFrom_launches]
  simp only [outstandingFrom, List.nil_append]
  exact outstandingFrom_waits _

/-- C6: the trace of `run_experiment_internal` is a sequence of per-iteration
blocks; at every block boundary no launched handle is left unwaited (so no
iteration's installs begin while a previous batch's handle is outstanding),
and within a block every launched handle's launch event precedes its wait
event. -/
theorem many_canisters_batches_waited (b : Nat) :
    run_experiment_internal b =
      (List.range (iterMax b)).flatMap (fun i => blockEvents b (i * b)) ∧
    (∀ i, outstanding ((List.range i).flatMap (fun k => blockEvents b (k * b))) = []) ∧
    (∀ c j, j < b → ∃ pre post,
      blockEvents b c = pre ++ MCEv.launchInstall (c + j) :: post ∧
      MCEv.waitHandle (c + j) ∈ post) := by
  refine ⟨rfl, ?_, ?_⟩
  · intro i
    induction i with
    | zero => rfl
    | succ k ih =>
        rw [List.range_succ, List.flatMap_append]
        unfold outstanding at ih ⊢
        rw [outstandingFrom_append, ih]
        simpa [List.flatMap] using outstanding_block b (k * b)
  · intro c j hj
    have hmem : MCEv.launchInstall (c + j) ∈
        (List.range b).map (fun j => MCEv.launchInstall (c + j)) :=
      List.mem_map.mpr ⟨j, List.mem_range.mpr hj, rfl⟩
    obtain ⟨s, t, hst⟩ := List.append_of_mem hmem
    refine ⟨[MCEv.promQuery "num_canisters", MCEv.promQuery "install_rate"] ++ s,
      t ++ (List.range b).map (fun j => MCEv.waitHandle (c + j)), ?_, ?_⟩
    · unfold blockEvents
      rw [hst]
      simp
    · exact List.mem_append_right t
        (List.mem_map.mpr ⟨j, List.mem_range.mpr hj, rfl⟩)

/-- Witness for `many_canisters_batches_waited` at `batchsize = 2`. -/
theorem many_canisters_batches_waited_witness :
    outstanding ((List.range 3).flatMap fun k => blockEvents 2 (k * 2)) = [] ∧
    ∃ pre post, blockEvents 2 0 = pre ++ MCEv.launchInstall (0 + 1) :: post ∧
      MCEv.waitHandle (0 + 1) ∈ post :=
  ⟨(many_canisters_batches_waited 2).2.1 3,
   (many_canisters_batches_waited 2).2.2 0 1 (by decide)⟩

/-! ### Prometheus scalar extraction (C7) -/

/-- A JSON value, as far as the extraction paths need it. -/
inductive Json where
  | str (s : String)
  | num (x : Int)
  | arr (elems : List Json)
  | obj (fields : List (String × Json))

/-- Python `j[k]` on an object, as an `Option` (a missing key raises). -/
def Json.getField : Json → String → Option Json
  | .obj fields, k => fields.lookup k
  | _, _ => none

/-- Python `j[i]` on an array, as an `Option` (an out-of-range index raises). -/
def Json.getIdx : Json → Nat → Option Json
  | .arr elems, i => elems.get? i
  | _, _ => none

/-- The value extraction of `parse_statesync_experiment`
(`cdweekly_results.py`) on old-format data:
`yvalue["result"][0]["value"][1]`. -/
def statesyncValueExtract (yvalue : Json) : Option Json :=
  (((yvalue.getField "result").bind (fun r => r.getIdx 0)).bind
    (fun e => e.getField "value")).bind (fun v => v.getIdx 1)

/-- Modelled from the spec: `prometheus.extract_value`
(`common/prometheus.py`, not under `src/`). The spec documents the extraction
as the JSON path `result[0].value[1]` and the call site indexes
`extract_value(response)[0][1]`, so `extract_value` returns the `value` pair
of each entry of the response's `result` array. -/
def extract_value (response : Json) : Option (List Json) :=
  (response.getField "result").bind fun r =>
    match r with
    | .arr entries => entries.mapM (fun e => e.getField "value")
    | _ => none

/-- The scalar read by `ManyCanistersExperiment.get_num_canisters`:
`extract_value(response)[0][1]`. -/
def get_num_canisters_scalar (response : Json) : Option Json :=
  (extract_value response).bind fun vals =>
    (vals.get? 0).bind fun v => v.getIdx 1

/-- The documented JSON path `result[0].value[1]`, written from the spec's
words: first element of the `result` array, then the second element of that
element's `value` pair. -/
def specScalarPath (response : Json) : Option Json :=
  (((response.getField "result").bind (fun r => r.getIdx 0)).bind
    (fun e => e.getField "value")).bind (fun v => v.getIdx 1)

theorem mapM_getField_head (f : Json → Option Json) :
    ∀ (l : List Json), (∀ e ∈ l, (f e).isSome) →
      ∃ vs, l.mapM f = some vs ∧ vs.get? 0 = (l.get? 0).bind f := by
  intro l
  induction l with
  | nil => intro _; exact ⟨[], rfl, rfl⟩
  | cons a l ih =>
      intro hall
      obtain ⟨b, hb⟩ := Option.isSome_iff_exists.mp (hall a (List.mem_cons_self a l))
      obtain ⟨vs, hvs, -⟩ := ih (fun e he => hall e (List.mem_cons_of_mem a he))
      refine ⟨b :: vs, ?_, ?_⟩
      · rw [List.mapM_cons, hb, hvs]; rfl
      · simp [hb]

/-- C7: on every well-formed metric-query response (the `result` field is an
array each entry of which carries a `value` field), the scalar read by
`get_num_canisters` via `extract_value(...)[0][1]` is exactly the documented
path `result[0].value[1]`; the in-source `parse_statesync_experiment`
extraction follows the same path on every response. -/
theorem scalar_extraction_follows_documented_path (response : Json)
    (entries : List Json)
    (hres : response.getField "result" = some (.arr entries))
    (hvals : ∀ e ∈ entries, (e.getField "value").isSome) :
    get_num_canisters_scalar response = specScalarPath response ∧
    ∀ j : Json, statesyncValueExtract j = specScalarPath j := by
  refine ⟨?_, fun _ => rfl⟩
  obtain ⟨vs, hvs, hhead⟩ :=
    mapM_getField_head (fun e => e.getField "value") entries hvals
  unfold get_num_canisters_scalar extract_value specScalarPath
  rw [hres]
  simp only [Option.bind_some, hvs, Option.some_bind, hhead, Json.getIdx,
    Option.bind_assoc]

/-- A concrete well-formed Prometheus response. -/
def sampleResponse : Json :=
  .obj [("status", .str "success"),
        ("result", .arr [.obj [("value", .arr [.num 1700000000, .str "42"])]])]

/-- Witness for `scalar_extraction_follows_documented_path` on a concrete
response: both extraction routes yield the scalar `"42"`. -/
theorem scalar_extraction_witness :
    get_num_canisters_scalar sampleResponse = specScalarPath sampleResponse ∧
    ∀ j : Json, statesyncValueExtract j = specScalarPath j :=
  scalar_extraction_follows_documented_path sampleResponse
    [.obj [("value", .arr [.num 1700000000, .str "42"])]] rfl
    (fun e he => by
      simp only [List.mem_singleton] at he
      subst he
      rfl)

/-! ### Honeycomb span export (`gitlab-ci/src/test_results/honeycomb.py`, C10) -/

/-- A test-result tree node as read by `input.read_test_results`: name, start
time (ms), duration (seconds and nanoseconds), result tag, and children. -/
inductive TestNode where
  | mk (name : String) (started_at : Nat) (duration_secs : Nat)
      (duration_nanos : Nat) (result : String) (children : List TestNode)

/-- Name of a test node. -/
def TestNode.name : TestNode → String
  | .mk n _ _ _ _ _ => n

/-- Function `to_millis`: combine seconds and nanoseconds into milliseconds
(`1000 * secs + nanos / 1000000`, exact rational division standing in for the
Python float division). -/
def to_millis (secs nanos : Nat) : ℚ := 1000 * secs + (nanos : ℚ) / 1000000

/-- The fields `push_span` adds to the libhoney event before sending it. -/
structure Span where
  service_name : String
  suite_name : String
  name : String
  created_at : Nat
  duration_ms : ℚ
  parent_id : String
  span_id : String
  job_url : String
  trace_id : String
  ci_provider : String
  execution_result : String
  execution_message : String
  result_depth : Nat

/-- The `Context` passed to the export (`honeycomb.Context`). -/
structure Ctx where
  trace_id : String
  job_url : String
  suite_name : String
  service_name : String

/-- Function `push_span`: generate a fresh span id, build the event's fields and send
it, returning the generated id. `idGen` models `secrets.token_hex(16)` drawing
on a fresh counter `c`; `fmt` models `input.format_node_result` (the `input`
module is not under `src/`), giving the execution result/message pair.
Returns the generated span id, the advanced counter and the sent span. -/
def push_span (idGen : Nat → String) (fmt : String → String × String)
    (node : TestNode) (parent_id : String) (ctx : Ctx) (depth c : Nat) :
    String × Nat × Span :=
  match node with
  | .mk n sa ds dn res _ =>
    let span_id := idGen c
    (span_id, c + 1,
     { service_name := ctx.service_name, suite_name := ctx.suite_name,
       name := n, created_at := sa / 1000,
       duration_ms := to_millis ds dn,
       parent_id := parent_id, span_id := span_id,
       job_url := ctx.job_url, trace_id := ctx.trace_id,
       ci_provider := "GitLab-CI",
       execution_result := (fmt res).1,
       execution_message := (fmt res).2,
       result_depth := depth })

mutual

/-- Function `create_and_export_spans`: push the node's own span, then recurse into
the children left to right with the freshly generated id as their parent id
and `depth + 1`, threading the id counter. Returns the advanced counter and
the pushed spans in emission order. -/
def create_and_export_spans (idGen : Nat → String)
    (fmt : String → String × String) (node : TestNode) (parent_id : String)
    (ctx : Ctx) (depth c : Nat) : Nat × List Span :=
  match node with
  | .mk n sa ds dn res cs =>
    let r := push_span idGen fmt (.mk n sa ds dn res cs) parent_id ctx depth c
    let rest := exportChildren idGen fmt cs r.1 ctx (depth + 1) r.2.1
    (rest.1, r.2.2 :: rest.2)

/-- The `for ch in node.children` loop of `create_and_export_spans`. -/
def exportChildren (idGen : Nat → String) (fmt : String → String × String) :
    List TestNode → String → Ctx → Nat → Nat → Nat × List Span
  | [], _, _, _, c => (c, [])
  | t :: ts, pid, ctx, d, c =>
    let r1 := create_and_export_spans idGen fmt t pid ctx d c
    let r2 := exportChildren idGen fmt ts pid ctx d r1.1
    (r2.1, r1.2 ++ r2.2)

end

mutual

/-- Names of a tree's nodes in depth-first pre-order. -/
def preorderNames : TestNode → List String
  | .mk n _ _ _ _ cs => n :: preorderForestNames cs

/-- Names of a forest's nodes in depth-first pre-order. -/
def preorderForestNames : List TestNode → List String
  | [] => []
  | t :: ts => preorderNames t ++ preorderForestNames ts

end

mutual

/-- Predicate `GoodSpans t pid d spans`: `spans` is a correct span list for the tree
`t` under parent id `pid` at depth `d` — the node's own span comes first
(before every descendant's span), carries the node's name, the given parent
id and the node's depth, and is followed by one correct block per child in
order, each parented on the span id freshly generated for this node and one
level deeper. -/
inductive GoodSpans : TestNode → String → Nat → List Span → Prop where
  | node : ∀ (n : String) (sa ds dn : Nat) (res : String)
      (cs : List TestNode) (pid : String) (d : Nat) (s : Span)
      (rest : List Span),
      s.name = n → s.parent_id = pid → s.result_depth = d →
      GoodChildren cs s.span_id (d + 1) rest →
      GoodSpans (.mk n sa ds dn res cs) pid d (s :: rest)

/-- Predicate `GoodChildren ts pid d spans`: `spans` is the concatenation, in order, of
one correct span block per tree of the forest `ts`, each under parent id
`pid` at depth `d`. -/
inductive GoodChildren : List TestNode → String → Nat → List Span → Prop where
  | nil : ∀ (pid : String) (d : Nat), GoodChildren [] pid d []
  | cons : ∀ (t : TestNode) (ts : List TestNode) (pid : String) (d : Nat)
      (s1 s2 : List Span),
      GoodSpans t pid d s1 → GoodChildren ts pid d s2 →
      GoodChildren (t :: ts) pid d (s1 ++ s2)

end

mutual

/-- Helper: the tree half of the mutual induction behind the span-export
claim theorem. -/
theorem spans_export_good_aux (idGen : Nat → String)
    (fmt : String → String × String) (t : TestNode) (pid : String) (ctx : Ctx)
    (d c : Nat) :
    GoodSpans t pid d (create_and_export_spans idGen fmt t pid ctx d c).2 ∧
    (create_and_export_spans idGen fmt t pid ctx d c).2.map Span.name =
      preorderNames t := by
  match t with
  | .mk n sa ds dn res cs =>
    have ih := spans_forest_good_aux idGen fmt cs (idGen c) ctx (d + 1) (c + 1)
    constructor
    · exact GoodSpans.node n sa ds dn res cs pid d _ _ rfl rfl rfl ih.1
    · simp only [create_and_export_spans, push_span, List.map_cons,
        preorderNames, ih.2]

/-- Helper: the forest half of the mutual induction behind the span-export
claim theorem. -/
theorem spans_forest_good_aux (idGen : Nat → String)
    (fmt : String → String × String) (ts : List TestNode) (pid : String)
    (ctx : Ctx) (d c : Nat) :
    GoodChildren ts pid d (exportChildren idGen fmt ts pid ctx d c).2 ∧
    (exportChildren idGen fmt ts pid ctx d c).2.map Span.name =
      preorderForestNames ts := by
  match ts with
  | [] => exact ⟨GoodChildren.nil pid d, rfl⟩
  | t :: ts =>
    have ih1 := spans_export_good_aux idGen fmt t pid ctx d c
    have ih2 := spans_forest_good_aux idGen fmt ts pid ctx d
      (create_and_export_spans idGen fmt t pid ctx d c).1
    constructor
    · exact GoodChildren.cons t ts pid d _ _ ih1.1 ih2.1
    · simp only [exportChildren, List.map_append, ih1.2, ih2.2,
        preorderForestNames]

end

/-- C10: the span export emits exactly one span per node, in depth-first
pre-order (the list of emitted span names is the pre-order name list, and the
`GoodSpans` predicate puts each node's span before all of its descendants');
every child's span carries as `trace.parent_id` the span id freshly generated
for its parent, and every span's `result_depth` is its node's depth counted
from the initial depth passed in. -/
theorem spans_export_correct (idGen : Nat → String)
    (fmt : String → String × String) (t : TestNode) (pid : String) (ctx : Ctx)
    (d c : Nat) :
    GoodSpans t pid d (create_and_export_spans idGen fmt t pid ctx d c).2 ∧
    (create_and_export_spans idGen fmt t pid ctx d c).2.map Span.name =
      preorderNames t :=
  spans_export_good_aux idGen fmt t pid ctx d c

end IC
